import Mathlib

/-!
Verification development for the MEL (Mathematical Expression Language)
six-phase compiler (`compiler.py`): lexical analysis, recursive-descent
parsing, semantic (declaration) checking, three-address-code generation,
peephole optimization, and tree-walking execution.

The Python source is shallowly embedded here.  Modelling conventions:

* Python `float` values are modelled as exact rationals `ℚ`; the runtime
  distinction between Python `int` results (comparison results, the two
  `0`-fallbacks) and `float` results is kept in the `Value` type because it
  is observable through `str()`.
* Loops in the parser (which can genuinely fail to terminate on some token
  sequences) and in the interpreter (`while` statements) are modelled with
  an explicit fuel parameter; `none` means the fuel was exhausted.  Fuel is
  consumed only at loop iterations and at nested-expression entry, so any
  terminating run succeeds once the fuel exceeds its loop/nesting depth.
* Exceptions (`SyntaxError`, `ValueError`, `TypeError`) are modelled with
  `Except String`, carrying the Python message text.
* `str(float)` is modelled exactly for rationals with a finite decimal
  expansion (the cases arising in the claims); other rationals are
  rendered as a fraction, a divergence from Python's 17-significant-digit
  repr that no claim depends on.
-/

set_option maxRecDepth 100000
set_option maxHeartbeats 8000000

/- `Rat`'s arithmetic is `@[irreducible]` in the library; re-enable
unfolding so that concrete pipeline runs evaluate by `decide`. -/
set_option allowUnsafeReducibility true
attribute [local semireducible] Rat.add Rat.sub Rat.mul Rat.div Rat.inv Rat.normalize Rat.neg

namespace MEL

/-- Decidable equality for `Except`, used to evaluate concrete phase
results. -/
instance {ε α : Type} [DecidableEq ε] [DecidableEq α] : DecidableEq (Except ε α) :=
  fun a b =>
    match a, b with
    | .error e1, .error e2 =>
      if h : e1 = e2 then .isTrue (by rw [h]) else .isFalse (by simp [h])
    | .ok a1, .ok a2 =>
      if h : a1 = a2 then .isTrue (by rw [h]) else .isFalse (by simp [h])
    | .error _, .ok _ => .isFalse (by simp)
    | .ok _, .error _ => .isFalse (by simp)

/-! ## Python-value model -/

/-- A MEL runtime value: Python `float`, Python `int`, or Python `str`. -/
inductive Value where
  | fnum (q : ℚ)
  | inum (n : ℤ)
  | vstr (s : String)
deriving DecidableEq, Repr

/-- Python type name of a value, as used in `TypeError` messages. -/
def Value.typeName : Value → String
  | .fnum _ => "float"
  | .inum _ => "int"
  | .vstr _ => "str"

/-- Numeric view of a value (`None` for strings). -/
def Value.toQ : Value → Option ℚ
  | .fnum q => some q
  | .inum n => some (n : ℚ)
  | .vstr _ => none

/-- Python truthiness: nonzero numbers and nonempty strings are true. -/
def Value.truthy : Value → Bool
  | .fnum q => q != 0
  | .inum n => n != 0
  | .vstr s => s != ""

/-- Python `value != 0` (used by the division-by-zero guards): false exactly
for numeric zero; any string compares unequal to `0`. -/
def Value.neZeroInt : Value → Bool
  | .fnum q => q != 0
  | .inum n => n != 0
  | .vstr _ => true

/-- Numeric value of a decimal-digit list (most significant first). -/
def digitsToNat (ds : List Char) : Nat :=
  ds.foldl (fun n c => 10 * n + (c.toNat - 48)) 0

/-- Characters allowed in the source's numeric literals and in the
optimizer's `[\d.]` character class. -/
def isNumDot (c : Char) : Bool := c.isDigit || c = '.'

/-- Python's `\w` character class restricted to ASCII. -/
def isWordChar (c : Char) : Bool := c.isAlphanum || c = '_'

/-- Python `float(s)` on the digit/dot strings this program feeds it
(`NUMBER` token texts and the optimizer's `[\d.]+` captures): accepts at
most one `.` and at least one digit, otherwise raises `ValueError` with
Python's message. -/
def pyFloat (s : String) : Except String ℚ :=
  let cs := s.data
  if cs ≠ [] ∧ cs.all isNumDot ∧ (cs.filter (· = '.')).length ≤ 1 ∧ cs.any Char.isDigit then
    let ip := cs.takeWhile (· ≠ '.')
    let fp := (cs.dropWhile (· ≠ '.')).drop 1
    .ok ((digitsToNat (ip ++ fp) : ℚ) / ((10 : ℚ) ^ fp.length))
  else
    .error ("could not convert string to float: '" ++ s ++ "'")

/-- Left-pad a string with `'0'` to width `w`. -/
def padZeros (w : Nat) (s : String) : String :=
  String.mk (List.replicate (w - s.length) '0') ++ s

/-- Python `str()` of a float, modelled for rationals: integral values
render as `n.0`, values with a finite decimal expansion render exactly
(Python's shortest repr agrees on these), all other rationals fall back to
a fraction rendering. -/
def fmtFloat (q : ℚ) : String :=
  if q.den = 1 then toString q.num ++ ".0"
  else
    match (List.range 60).find? (fun k => (q * ((10 : ℚ)) ^ (k + 1)).den = 1) with
    | some k =>
      let m : ℤ := (q * ((10 : ℚ)) ^ (k + 1)).num
      let sign := if m < 0 then "-" else ""
      let a : ℕ := m.natAbs
      let p : ℕ := 10 ^ (k + 1)
      sign ++ toString (a / p) ++ "." ++ padZeros (k + 1) (toString (a % p))
    | none => toString q.num ++ "/" ++ toString q.den

/-- Python `str()` of a runtime value. -/
def Value.pyStr : Value → String
  | .fnum q => fmtFloat q
  | .inum n => toString n
  | .vstr s => s

/-- Python-dict insertion/update for an association list: updating an
existing key keeps its position, a new key is appended at the end. -/
def dictInsert {α : Type} : List (String × α) → String → α → List (String × α)
  | [], k, v => [(k, v)]
  | (k', v') :: rest, k, v =>
    if k' = k then (k, v) :: rest else (k', v') :: dictInsert rest k v

/-- Is `pat` a prefix of `cs`? -/
def charsStartsWith : List Char → List Char → Bool
  | _, [] => true
  | [], _ :: _ => false
  | c :: cs, p :: ps => c = p && charsStartsWith cs ps

/-- Does `pat` occur inside `cs`? -/
def charsContains : List Char → List Char → Bool
  | [], pat => pat = []
  | c :: cs, pat => charsStartsWith (c :: cs) pat || charsContains cs pat

/-- Python `pat in s` substring test. -/
def strContains (s pat : String) : Bool := charsContains s.data pat.data

/-- Replace every non-overlapping occurrence of `pat` (nonempty), leftmost
first — the semantics of Python `str.replace`.  The fuel argument is
instantiated with the string length, which (each step consuming at least
one character) always suffices. -/
def charsReplaceGo : Nat → List Char → List Char → List Char → List Char
  | _, [], _, _ => []
  | 0, cs, _, _ => cs
  | fuel + 1, c :: cs, pat, rep =>
    if pat ≠ [] ∧ charsStartsWith (c :: cs) pat then
      rep ++ charsReplaceGo fuel ((c :: cs).drop pat.length) pat rep
    else c :: charsReplaceGo fuel cs pat rep

/-- Python `s.replace(pat, rep)`. -/
def pyReplace (s pat rep : String) : String :=
  String.mk (charsReplaceGo s.data.length s.data pat.data rep.data)

/-! ## Phase 1: lexical analysis (`Lexer`) -/

/-- Token kinds of the MEL language. -/
inductive TokenType where
  | KEYWORD | IDENTIFIER | NUMBER | STRING | OPERATOR | SEPARATOR | COMMENT | EOF
deriving DecidableEq, Repr

/-- A token: kind, literal text, line and column. -/
structure Token where
  type : TokenType
  value : String
  line : Nat
  column : Nat
deriving DecidableEq, Repr

/-- The fixed keyword set. -/
def KEYWORDS : List String :=
  ["var", "if", "else", "while", "for", "print", "function", "return"]

/-- The operator set (one- and two-character). -/
def OPERATORS : List String :=
  ["+", "-", "*", "/", "=", "==", "!=", "<", ">", "<=", ">=", "&&", "||", "!"]

/-- Characters that can start an operator. -/
def isOperatorStart (c : Char) : Bool :=
  c = '+' || c = '-' || c = '*' || c = '/' || c = '=' ||
  c = '!' || c = '<' || c = '>' || c = '&' || c = '|'

/-- The separator characters. -/
def isSeparatorChar (c : Char) : Bool :=
  c = '(' || c = ')' || c = '{' || c = '}' || c = ';' || c = ','

/-- Python `str.isspace` restricted to ASCII. -/
def pyIsSpace (c : Char) : Bool :=
  c = ' ' || c = '\t' || c = '\n' || c = '\r' || c = '\x0b' || c = '\x0c'

/-- Dropping a prefix never lengthens a list (termination helper). -/
theorem length_dropWhile_le {α : Type} (p : α → Bool) (l : List α) :
    (l.dropWhile p).length ≤ l.length :=
  (List.dropWhile_sublist p).length_le

/-- One left-to-right scan of the source characters, mirroring
`Lexer.tokenize`: whitespace updates line/column, `#` comments run to the
newline, strings run to the closing quote (skipped if present), numbers are
maximal digit/dot runs starting at a digit, identifiers/keywords are
alnum/`_` runs, operators greedily take a second character when the pair is
a listed operator, separators are single characters, and any other
character is silently skipped. -/
def lexChars : Nat → List Char → Nat → Nat → List Token
  | _, [], line, col => [⟨.EOF, "", line, col⟩]
  | 0, _, line, col => [⟨.EOF, "", line, col⟩]
  | fuel + 1, c :: cs, line, col =>
    if pyIsSpace c then
      if c = '\n' then lexChars fuel cs (line + 1) 1 else lexChars fuel cs line (col + 1)
    else if c = '#' then
      let body := cs.takeWhile (· ≠ '\n')
      let rest := cs.dropWhile (· ≠ '\n')
      ⟨.COMMENT, String.mk (c :: body), line, col⟩ ::
        lexChars fuel rest line (col + 1 + body.length)
    else if c = '"' then
      let body := cs.takeWhile (· ≠ '"')
      let rest := (cs.dropWhile (· ≠ '"')).drop 1
      ⟨.STRING, String.mk body, line, col⟩ ::
        lexChars fuel rest line (col + body.length + 2)
    else if c.isDigit then
      let body := cs.takeWhile isNumDot
      let rest := cs.dropWhile isNumDot
      ⟨.NUMBER, String.mk (c :: body), line, col⟩ ::
        lexChars fuel rest line (col + 1 + body.length)
    else if c.isAlpha || c = '_' then
      let body := cs.takeWhile isWordChar
      let rest := cs.dropWhile isWordChar
      let v := String.mk (c :: body)
      ⟨(if v ∈ KEYWORDS then .KEYWORD else .IDENTIFIER), v, line, col⟩ ::
        lexChars fuel rest line (col + 1 + body.length)
    else if isOperatorStart c then
      let two := String.mk (c :: cs.take 1)
      if cs ≠ [] ∧ two ∈ OPERATORS then
        ⟨.OPERATOR, two, line, col⟩ :: lexChars fuel (cs.drop 1) line (col + 2)
      else
        ⟨.OPERATOR, String.mk [c], line, col⟩ :: lexChars fuel cs line (col + 1)
    else if isSeparatorChar c then
      ⟨.SEPARATOR, String.mk [c], line, col⟩ :: lexChars fuel cs line (col + 1)
    else
      lexChars fuel cs line (col + 1)

/-- `Lexer.tokenize`: scan the source text into tokens, ending with EOF.
Every loop iteration consumes at least one character, so the character
count is always enough fuel. -/
def Lexer.tokenize (source : String) : List Token :=
  lexChars source.data.length source.data 1 1

/-! ## Phase 2: syntax analysis (`Parser`) -/

/-- Expression AST nodes. -/
inductive Expr where
  | number (value : ℚ)
  | string (value : String)
  | identifier (name : String)
  | binaryOp (operator : String) (left right : Expr)
deriving DecidableEq, Repr

/-- Statement AST nodes.  `ifStatement`'s `elseBranch` is `none` when no
`else` clause was written (Python's `else_branch=None`). -/
inductive Stmt where
  | varDeclaration (name : String) (value : Expr)
  | assignment (name : String) (value : Expr)
  | whileLoop (condition : Expr) (body : List Stmt)
  | ifStatement (condition : Expr) (thenBranch : List Stmt) (elseBranch : Option (List Stmt))
  | printStatement (value : Expr)
deriving Repr

/-- `Parser._peek`: current token, or a synthesized EOF token past the end. -/
def peekT (toks : List Token) (pos : Nat) : Token :=
  toks.getD pos ⟨.EOF, "", 0, 0⟩

/-- `Parser._check`: does the current token's text equal `v`? -/
def checkT (toks : List Token) (pos : Nat) (v : String) : Bool :=
  (peekT toks pos).value = v

/-- `Parser._consume`: demand a token with the given text, else the
`SyntaxError` carrying the offending token's text. -/
def pConsume (toks : List Token) (expected : String) (pos : Nat) : Except String Nat :=
  if (peekT toks pos).value = expected then .ok (pos + 1)
  else .error ("Expected '" ++ expected ++ "', got '" ++ (peekT toks pos).value ++ "'")

/-- `Parser._consume_identifier`: demand an identifier token. -/
def pConsumeIdent (toks : List Token) (pos : Nat) : Except String (String × Nat) :=
  if (peekT toks pos).type = TokenType.IDENTIFIER then .ok ((peekT toks pos).value, pos + 1)
  else .error ("Expected identifier, got '" ++ (peekT toks pos).value ++ "'")

/-- Parser results: `none` models nontermination (fuel ran out), `.error`
a raised exception, `.ok` a parsed value together with the new position. -/
abbrev PRes (α : Type) := Option (Except String α)

/-- Sequence a parser result into a continuation. -/
def pBind {α β : Type} : PRes α → (α → PRes β) → PRes β
  | none, _ => none
  | some (.error e), _ => some (.error e)
  | some (.ok a), k => k a

/-- Lift a non-recursive `Except` step into `PRes`. -/
def pLift {α : Type} : Except String α → PRes α
  | .error e => some (.error e)
  | .ok a => some (.ok a)

mutual

/-- The `Parser.parse` loop: parse statements until EOF (or past the end),
collecting non-`None` results.  All parser functions consume one unit of
fuel per call, so `none` (out of fuel) at every fuel value models a parse
that never terminates. -/
def pProgram (toks : List Token) : Nat → Nat → List Stmt → PRes (List Stmt)
  | 0, _, _ => none
  | fuel + 1, pos, acc =>
    if pos < toks.length ∧ (peekT toks pos).type ≠ TokenType.EOF then
      pBind (pStatement toks fuel pos) (fun sp =>
        pProgram toks fuel sp.2 (match sp.1 with | some s => acc ++ [s] | none => acc))
    else some (.ok acc)
termination_by structural fuel _ _ => fuel

/-- `Parser._statement`: dispatch on the leading token; an unrecognized
leading token is skipped (one token consumed, no node produced). -/
def pStatement (toks : List Token) : Nat → Nat → PRes (Option Stmt × Nat)
  | 0, _ => none
  | fuel + 1, pos =>
    if checkT toks pos "var" then
      pBind (pVarDeclaration toks fuel pos) (fun sp => some (.ok (some sp.1, sp.2)))
    else if checkT toks pos "while" then
      pBind (pWhileLoop toks fuel pos) (fun sp => some (.ok (some sp.1, sp.2)))
    else if checkT toks pos "if" then
      pBind (pIfStatement toks fuel pos) (fun sp => some (.ok (some sp.1, sp.2)))
    else if checkT toks pos "print" then
      pBind (pPrintStatement toks fuel pos) (fun sp => some (.ok (some sp.1, sp.2)))
    else if (peekT toks pos).type = TokenType.IDENTIFIER then
      pBind (pAssignment toks fuel pos) (fun sp => some (.ok (some sp.1, sp.2)))
    else
      some (.ok (none, pos + 1))
termination_by structural fuel _ => fuel

/-- `Parser._var_declaration`. -/
def pVarDeclaration (toks : List Token) : Nat → Nat → PRes (Stmt × Nat)
  | 0, _ => none
  | fuel + 1, pos =>
    pBind (pLift (pConsume toks "var" pos)) (fun p1 =>
    pBind (pLift (pConsumeIdent toks p1)) (fun np =>
    pBind (pLift (pConsume toks "=" np.2)) (fun p2 =>
    pBind (pExpression toks fuel p2) (fun vp =>
    pBind (pLift (pConsume toks ";" vp.2)) (fun p3 =>
    some (.ok (.varDeclaration np.1 vp.1, p3)))))))
termination_by structural fuel _ => fuel

/-- `Parser._assignment`. -/
def pAssignment (toks : List Token) : Nat → Nat → PRes (Stmt × Nat)
  | 0, _ => none
  | fuel + 1, pos =>
    pBind (pLift (pConsumeIdent toks pos)) (fun np =>
    pBind (pLift (pConsume toks "=" np.2)) (fun p1 =>
    pBind (pExpression toks fuel p1) (fun vp =>
    pBind (pLift (pConsume toks ";" vp.2)) (fun p2 =>
    some (.ok (.assignment np.1 vp.1, p2))))))
termination_by structural fuel _ => fuel

/-- `Parser._while_loop`. -/
def pWhileLoop (toks : List Token) : Nat → Nat → PRes (Stmt × Nat)
  | 0, _ => none
  | fuel + 1, pos =>
    pBind (pLift (pConsume toks "while" pos)) (fun p1 =>
    pBind (pLift (pConsume toks "(" p1)) (fun p2 =>
    pBind (pExpression toks fuel p2) (fun cp =>
    pBind (pLift (pConsume toks ")" cp.2)) (fun p3 =>
    pBind (pLift (pConsume toks "\x7b" p3)) (fun p4 =>
    pBind (pBlockBody toks fuel p4 []) (fun bp =>
    pBind (pLift (pConsume toks "\x7d" bp.2)) (fun p5 =>
    some (.ok (.whileLoop cp.1 bp.1, p5)))))))))
termination_by structural fuel _ => fuel

/-- `Parser._if_statement`. -/
def pIfStatement (toks : List Token) : Nat → Nat → PRes (Stmt × Nat)
  | 0, _ => none
  | fuel + 1, pos =>
    pBind (pLift (pConsume toks "if" pos)) (fun p1 =>
    pBind (pLift (pConsume toks "(" p1)) (fun p2 =>
    pBind (pExpression toks fuel p2) (fun cp =>
    pBind (pLift (pConsume toks ")" cp.2)) (fun p3 =>
    pBind (pLift (pConsume toks "\x7b" p3)) (fun p4 =>
    pBind (pBlockBody toks fuel p4 []) (fun tp =>
    pBind (pLift (pConsume toks "\x7d" tp.2)) (fun p5 =>
    if checkT toks p5 "else" then
      pBind (pLift (pConsume toks "else" p5)) (fun p6 =>
      pBind (pLift (pConsume toks "\x7b" p6)) (fun p7 =>
      pBind (pBlockBody toks fuel p7 []) (fun ep =>
      pBind (pLift (pConsume toks "\x7d" ep.2)) (fun p8 =>
      some (.ok (.ifStatement cp.1 tp.1 (some ep.1), p8))))))
    else
      some (.ok (.ifStatement cp.1 tp.1 none, p5)))))))))
termination_by structural fuel _ => fuel

/-- `Parser._print_statement`. -/
def pPrintStatement (toks : List Token) : Nat → Nat → PRes (Stmt × Nat)
  | 0, _ => none
  | fuel + 1, pos =>
    pBind (pLift (pConsume toks "print" pos)) (fun p1 =>
    pBind (pLift (pConsume toks "(" p1)) (fun p2 =>
    pBind (pExpression toks fuel p2) (fun vp =>
    pBind (pLift (pConsume toks ")" vp.2)) (fun p3 =>
    pBind (pLift (pConsume toks ";" p3)) (fun p4 =>
    some (.ok (.printStatement vp.1, p4)))))))
termination_by structural fuel _ => fuel

/-- The `while not self._check(\x7d-token)` block-body loop shared by
`_while_loop` and `_if_statement`: this is the loop that never exits when
the closing brace is missing and end of input is reached (the skip branch
of `_statement` keeps advancing past the synthesized EOF token). -/
def pBlockBody (toks : List Token) : Nat → Nat → List Stmt → PRes (List Stmt × Nat)
  | 0, _, _ => none
  | fuel + 1, pos, acc =>
    if checkT toks pos "\x7d" then some (.ok (acc, pos))
    else
      pBind (pStatement toks fuel pos) (fun sp =>
        pBlockBody toks fuel sp.2 (match sp.1 with | some s => acc ++ [s] | none => acc))
termination_by structural fuel _ _ => fuel

/-- `Parser._expression`. -/
def pExpression (toks : List Token) : Nat → Nat → PRes (Expr × Nat)
  | 0, _ => none
  | fuel + 1, pos => pLogicalOr toks fuel pos
termination_by structural fuel _ => fuel

/-- `Parser._logical_or`. -/
def pLogicalOr (toks : List Token) : Nat → Nat → PRes (Expr × Nat)
  | 0, _ => none
  | fuel + 1, pos =>
    pBind (pLogicalAnd toks fuel pos) (fun lp => pOrLoop toks fuel lp.1 lp.2)
termination_by structural fuel _ => fuel

/-- The ll-operator loop of `_logical_or`. -/
def pOrLoop (toks : List Token) : Nat → Expr → Nat → PRes (Expr × Nat)
  | 0, _, _ => none
  | fuel + 1, left, pos =>
    if checkT toks pos "||" then
      pBind (pLogicalAnd toks fuel (pos + 1)) (fun rp =>
        pOrLoop toks fuel (.binaryOp (peekT toks pos).value left rp.1) rp.2)
    else some (.ok (left, pos))
termination_by structural fuel _ _ => fuel

/-- `Parser._logical_and`. -/
def pLogicalAnd (toks : List Token) : Nat → Nat → PRes (Expr × Nat)
  | 0, _ => none
  | fuel + 1, pos =>
    pBind (pEquality toks fuel pos) (fun lp => pAndLoop toks fuel lp.1 lp.2)
termination_by structural fuel _ => fuel

/-- The `&&` loop of `_logical_and`. -/
def pAndLoop (toks : List Token) : Nat → Expr → Nat → PRes (Expr × Nat)
  | 0, _, _ => none
  | fuel + 1, left, pos =>
    if checkT toks pos "&&" then
      pBind (pEquality toks fuel (pos + 1)) (fun rp =>
        pAndLoop toks fuel (.binaryOp (peekT toks pos).value left rp.1) rp.2)
    else some (.ok (left, pos))
termination_by structural fuel _ _ => fuel

/-- `Parser._equality`. -/
def pEquality (toks : List Token) : Nat → Nat → PRes (Expr × Nat)
  | 0, _ => none
  | fuel + 1, pos =>
    pBind (pComparison toks fuel pos) (fun lp => pEqLoop toks fuel lp.1 lp.2)
termination_by structural fuel _ => fuel

/-- The `==`/`!=` loop of `_equality`. -/
def pEqLoop (toks : List Token) : Nat → Expr → Nat → PRes (Expr × Nat)
  | 0, _, _ => none
  | fuel + 1, left, pos =>
    if checkT toks pos "==" ∨ checkT toks pos "!=" then
      pBind (pComparison toks fuel (pos + 1)) (fun rp =>
        pEqLoop toks fuel (.binaryOp (peekT toks pos).value left rp.1) rp.2)
    else some (.ok (left, pos))
termination_by structural fuel _ _ => fuel

/-- `Parser._comparison`. -/
def pComparison (toks : List Token) : Nat → Nat → PRes (Expr × Nat)
  | 0, _ => none
  | fuel + 1, pos =>
    pBind (pAdditive toks fuel pos) (fun lp => pCompLoop toks fuel lp.1 lp.2)
termination_by structural fuel _ => fuel

/-- The `<`/`>`/`<=`/`>=` loop of `_comparison`. -/
def pCompLoop (toks : List Token) : Nat → Expr → Nat → PRes (Expr × Nat)
  | 0, _, _ => none
  | fuel + 1, left, pos =>
    if checkT toks pos "<" ∨ checkT toks pos ">" ∨ checkT toks pos "<=" ∨
        checkT toks pos ">=" then
      pBind (pAdditive toks fuel (pos + 1)) (fun rp =>
        pCompLoop toks fuel (.binaryOp (peekT toks pos).value left rp.1) rp.2)
    else some (.ok (left, pos))
termination_by structural fuel _ _ => fuel

/-- `Parser._additive`. -/
def pAdditive (toks : List Token) : Nat → Nat → PRes (Expr × Nat)
  | 0, _ => none
  | fuel + 1, pos =>
    pBind (pMultiplicative toks fuel pos) (fun lp => pAddLoop toks fuel lp.1 lp.2)
termination_by structural fuel _ => fuel

/-- The `+`/`-` loop of `_additive`. -/
def pAddLoop (toks : List Token) : Nat → Expr → Nat → PRes (Expr × Nat)
  | 0, _, _ => none
  | fuel + 1, left, pos =>
    if checkT toks pos "+" ∨ checkT toks pos "-" then
      pBind (pMultiplicative toks fuel (pos + 1)) (fun rp =>
        pAddLoop toks fuel (.binaryOp (peekT toks pos).value left rp.1) rp.2)
    else some (.ok (left, pos))
termination_by structural fuel _ _ => fuel

/-- `Parser._multiplicative`. -/
def pMultiplicative (toks : List Token) : Nat → Nat → PRes (Expr × Nat)
  | 0, _ => none
  | fuel + 1, pos =>
    pBind (pPrimary toks fuel pos) (fun lp => pMulLoop toks fuel lp.1 lp.2)
termination_by structural fuel _ => fuel

/-- The `*`/`/` loop of `_multiplicative`. -/
def pMulLoop (toks : List Token) : Nat → Expr → Nat → PRes (Expr × Nat)
  | 0, _, _ => none
  | fuel + 1, left, pos =>
    if checkT toks pos "*" ∨ checkT toks pos "/" then
      pBind (pPrimary toks fuel (pos + 1)) (fun rp =>
        pMulLoop toks fuel (.binaryOp (peekT toks pos).value left rp.1) rp.2)
    else some (.ok (left, pos))
termination_by structural fuel _ _ => fuel

/-- `Parser._primary`: number (via Python `float`, which can raise
`ValueError`), string, identifier, parenthesized expression, or the
`Unexpected token` `SyntaxError`. -/
def pPrimary (toks : List Token) : Nat → Nat → PRes (Expr × Nat)
  | 0, _ => none
  | fuel + 1, pos =>
    match (peekT toks pos).type with
    | .NUMBER =>
      pBind (pLift (pyFloat (peekT toks pos).value)) (fun q => some (.ok (.number q, pos + 1)))
    | .STRING => some (.ok (.string (peekT toks pos).value, pos + 1))
    | .IDENTIFIER => some (.ok (.identifier (peekT toks pos).value, pos + 1))
    | _ =>
      if (peekT toks pos).value = "(" then
        pBind (pExpression toks fuel (pos + 1)) (fun ep =>
        pBind (pLift (pConsume toks ")" ep.2)) (fun p2 =>
        some (.ok (ep.1, p2))))
      else
        some (.error ("Unexpected token: " ++ (peekT toks pos).value))
termination_by structural fuel _ => fuel

end

/-- `Parser.parse`: filter out comments, then run the statement loop from
position 0. -/
def Parser.parse (fuel : Nat) (tokens : List Token) : PRes (List Stmt) :=
  pProgram (tokens.filter (fun t => t.type ≠ TokenType.COMMENT)) fuel 0 []

/-! ## Phase 3: semantic analysis (`SemanticAnalyzer`) -/

/-- A symbol-table entry. -/
structure Symbol where
  name : String
  type : String
  scope : String
  line : Nat
  declared : Bool
  error : Option String
deriving DecidableEq, Repr

/-- The analyzer's state: the `symbols` table (a dict), the ordered
`symbol_list` log, the diagnostic list, and the (never reassigned)
`current_scope`. -/
structure SemState where
  symbols : List (String × Symbol)
  symbolList : List Symbol
  errors : List String
  currentScope : String
deriving Repr

mutual

/-- `SemanticAnalyzer._analyze_node`: declarations append one log entry
(error-flagged without touching the table when the name already exists);
assignments append one error-flagged entry only when the name is absent;
`while`/`if` recurse into their statement lists; `print` is not handled
(no effect). -/
def SemanticAnalyzer.analyzeNode (st : SemState) : Stmt → SemState
  | .varDeclaration name _ =>
    if (st.symbols.lookup name).isSome then
      { st with
        errors := st.errors ++ ["Variable '" ++ name ++ "' already declared"],
        symbolList := st.symbolList ++
          [⟨name, "variable", st.currentScope, 0, true, some "Already declared"⟩] }
    else
      let sym : Symbol := ⟨name, "variable", st.currentScope, 0, true, none⟩
      { st with
        symbols := dictInsert st.symbols name sym,
        symbolList := st.symbolList ++ [sym] }
  | .assignment name _ =>
    if (st.symbols.lookup name).isSome then st
    else
      { st with
        errors := st.errors ++ ["Variable '" ++ name ++ "' not declared"],
        symbolList := st.symbolList ++
          [⟨name, "error", st.currentScope, 0, false, some "Undeclared variable"⟩] }
  | .whileLoop _ body => SemanticAnalyzer.analyzeList st body
  | .ifStatement _ thenBranch elseBranch =>
    let st1 := SemanticAnalyzer.analyzeList st thenBranch
    match elseBranch with
    | some els => SemanticAnalyzer.analyzeList st1 els
    | none => st1
  | .printStatement _ => st
termination_by structural s => s

/-- The statement-list walk of `SemanticAnalyzer.analyze`. -/
def SemanticAnalyzer.analyzeList (st : SemState) : List Stmt → SemState
  | [] => st
  | n :: rest => SemanticAnalyzer.analyzeList (SemanticAnalyzer.analyzeNode st n) rest
termination_by structural l => l

end

/-- `SemanticAnalyzer()` followed by `.analyze(ast)`: fresh state with the
scope label `"global"`. -/
def SemanticAnalyzer.analyze (ast : List Stmt) : SemState :=
  SemanticAnalyzer.analyzeList ⟨[], [], [], "global"⟩ ast

/-! ## Phase 4: intermediate code generation (`IntermediateCodeGenerator`) -/

/-- The generator's state: emitted lines plus the two per-instance
counters (`temp_counter`, `label_counter`), both `0` on construction. -/
structure GenState where
  code : List String
  tempCounter : Nat
  labelCounter : Nat
deriving Repr

/-- `_generate_expr`: returns the operand text holding the expression's
value, emitting `t<N> = left op right` lines for binary operations
(left operand lowered before the right one). -/
def ICG.genExpr (st : GenState) : Expr → String × GenState
  | .number v => (fmtFloat v, st)
  | .string s => ("\"" ++ s ++ "\"", st)
  | .identifier n => (n, st)
  | .binaryOp op l r =>
    let lp := ICG.genExpr st l
    let rp := ICG.genExpr lp.2 r
    let temp := "t" ++ toString rp.2.tempCounter
    (temp,
     { rp.2 with
       tempCounter := rp.2.tempCounter + 1,
       code := rp.2.code ++ [temp ++ " = " ++ lp.1 ++ " " ++ op ++ " " ++ rp.1] })

mutual

/-- `_generate_node`: three-address-code emission per statement form. -/
def ICG.genNode (st : GenState) : Stmt → GenState
  | .varDeclaration name v =>
    let vp := ICG.genExpr st v
    { vp.2 with code := vp.2.code ++ [name ++ " = " ++ vp.1] }
  | .assignment name v =>
    let vp := ICG.genExpr st v
    { vp.2 with code := vp.2.code ++ [name ++ " = " ++ vp.1] }
  | .whileLoop cond body =>
    let startLabel := "L" ++ toString st.labelCounter
    let endLabel := "L" ++ toString (st.labelCounter + 1)
    let st1 := { st with labelCounter := st.labelCounter + 2 }
    let st2 := { st1 with code := st1.code ++ [startLabel ++ ":"] }
    let cp := ICG.genExpr st2 cond
    let st3 := { cp.2 with code := cp.2.code ++ ["if " ++ cp.1 ++ " == 0 goto " ++ endLabel] }
    let st4 := ICG.genList st3 body
    { st4 with code := st4.code ++ ["goto " ++ startLabel] ++ [endLabel ++ ":"] }
  | .ifStatement cond thenBranch elseBranch =>
    let elseLabel := "L" ++ toString st.labelCounter
    let endLabel := "L" ++ toString (st.labelCounter + 1)
    let st1 := { st with labelCounter := st.labelCounter + 2 }
    let cp := ICG.genExpr st1 cond
    let st2 := { cp.2 with code := cp.2.code ++ ["if " ++ cp.1 ++ " == 0 goto " ++ elseLabel] }
    let st3 := ICG.genList st2 thenBranch
    let st4 := { st3 with code := st3.code ++ ["goto " ++ endLabel] ++ [elseLabel ++ ":"] }
    let st5 := match elseBranch with
      | some els => ICG.genList st4 els
      | none => st4
    { st5 with code := st5.code ++ [endLabel ++ ":"] }
  | .printStatement v =>
    let vp := ICG.genExpr st v
    { vp.2 with code := vp.2.code ++ ["print " ++ vp.1] }
termination_by structural s => s

/-- The statement-list walk of `IntermediateCodeGenerator.generate`. -/
def ICG.genList (st : GenState) : List Stmt → GenState
  | [] => st
  | n :: rest => ICG.genList (ICG.genNode st n) rest
termination_by structural l => l

end

/-- `IntermediateCodeGenerator()` followed by `.generate(ast)`. -/
def ICG.generate (ast : List Stmt) : List String :=
  (ICG.genList ⟨[], 0, 0⟩ ast).code

/-! ## Phase 5: optimization (`Optimizer`) -/

/-- The regex `(\w+) = ([\d.]+) ([+\-*/]) ([\d.]+)` applied with
`re.match` (anchored at the start, free tail).  Because each greedy class
(`\w`, `[\d.]`) is disjoint from the character that must follow it, the
match is equivalent to this deterministic maximal-munch scan. -/
def foldMatch (line : String) : Option (String × String × Char × String) :=
  let cs := line.data
  let w := cs.takeWhile isWordChar
  let r1 := cs.dropWhile isWordChar
  if w = [] then none else
  match r1 with
  | ' ' :: '=' :: ' ' :: r2 =>
    let a := r2.takeWhile isNumDot
    let r3 := r2.dropWhile isNumDot
    if a = [] then none else
    (match r3 with
     | ' ' :: op :: ' ' :: r4 =>
       if op = '+' ∨ op = '-' ∨ op = '*' ∨ op = '/' then
         let b := r4.takeWhile isNumDot
         if b = [] then none else some (String.mk w, String.mk a, op, String.mk b)
       else none
     | _ => none)
  | _ => none

/-- The folded value: Python float arithmetic on the two literals, with a
division by a literal zero yielding the Python `int` `0`. -/
def foldValue (op : Char) (lv rv : ℚ) : Value :=
  if op = '+' then .fnum (lv + rv)
  else if op = '-' then .fnum (lv - rv)
  else if op = '*' then .fnum (lv * rv)
  else if rv ≠ 0 then .fnum (lv / rv) else .inum 0

/-- One iteration of the `Optimizer.optimize` loop on a single line:
constant folding when the regex matches (each `float()` call can raise),
else naive whole-dict string substitution when any known constant's name
occurs as a substring, else the line unchanged. -/
def optLine (constants : List (String × Value)) (line : String) :
    Except String (String × List (String × Value)) :=
  match foldMatch line with
  | some (result, left, op, right) =>
    match pyFloat left with
    | .error e => .error e
    | .ok lv =>
      match pyFloat right with
      | .error e => .error e
      | .ok rv =>
        let value := foldValue op lv rv
        .ok (result ++ " = " ++ value.pyStr ++ "  # Constant folded",
             dictInsert constants result value)
  | none =>
    if constants.any (fun kv => strContains line kv.1) then
      .ok (constants.foldl (fun l kv => pyReplace l kv.1 kv.2.pyStr) line, constants)
    else
      .ok (line, constants)

/-- The `for line in tac` loop of `Optimizer.optimize`. -/
def optGo (constants : List (String × Value)) : List String → Except String (List String)
  | [] => .ok []
  | line :: rest =>
    match optLine constants line with
    | .error e => .error e
    | .ok lc =>
      match optGo lc.2 rest with
      | .error e => .error e
      | .ok out => .ok (lc.1 :: out)

/-- `Optimizer.optimize`. -/
def Optimizer.optimize (tac : List String) : Except String (List String) :=
  optGo [] tac

/-! ## Phase 6: execution (`Interpreter`) -/

/-- Python `left + right` on MEL values: numeric addition (int stays int),
string concatenation, `TypeError` on a mix. -/
def pyAdd : Value → Value → Except String Value
  | .inum a, .inum b => .ok (.inum (a + b))
  | .inum a, .fnum b => .ok (.fnum ((a : ℚ) + b))
  | .fnum a, .inum b => .ok (.fnum (a + (b : ℚ)))
  | .fnum a, .fnum b => .ok (.fnum (a + b))
  | .vstr a, .vstr b => .ok (.vstr (a ++ b))
  | .vstr _, rv => .error ("can only concatenate str (not \"" ++ rv.typeName ++ "\") to str")
  | lv, rv =>
    .error ("unsupported operand type(s) for +: '" ++ lv.typeName ++ "' and '" ++
      rv.typeName ++ "'")

/-- Python `left - right`. -/
def pySub : Value → Value → Except String Value
  | .inum a, .inum b => .ok (.inum (a - b))
  | .inum a, .fnum b => .ok (.fnum ((a : ℚ) - b))
  | .fnum a, .inum b => .ok (.fnum (a - (b : ℚ)))
  | .fnum a, .fnum b => .ok (.fnum (a - b))
  | lv, rv =>
    .error ("unsupported operand type(s) for -: '" ++ lv.typeName ++ "' and '" ++
      rv.typeName ++ "'")

/-- Python string repetition `s * n` (empty for nonpositive counts). -/
def strRepeat (s : String) (n : ℤ) : String :=
  if n ≤ 0 then "" else String.join (List.replicate n.toNat s)

/-- Python `left * right`, including `int`-by-string repetition. -/
def pyMul : Value → Value → Except String Value
  | .inum a, .inum b => .ok (.inum (a * b))
  | .inum a, .fnum b => .ok (.fnum ((a : ℚ) * b))
  | .fnum a, .inum b => .ok (.fnum (a * (b : ℚ)))
  | .fnum a, .fnum b => .ok (.fnum (a * b))
  | .inum a, .vstr s => .ok (.vstr (strRepeat s a))
  | .vstr s, .inum b => .ok (.vstr (strRepeat s b))
  | .vstr _, rv => .error ("can't multiply sequence by non-int of type '" ++ rv.typeName ++ "'")
  | _, .vstr _ => .error "can't multiply sequence by non-int of type 'float'"

/-- Python `left / right` (true division, always a float), reached only
when the `right != 0` guard passed. -/
def pyDivRaw : Value → Value → Except String Value
  | .inum a, .inum b => .ok (.fnum ((a : ℚ) / (b : ℚ)))
  | .inum a, .fnum b => .ok (.fnum ((a : ℚ) / b))
  | .fnum a, .inum b => .ok (.fnum (a / (b : ℚ)))
  | .fnum a, .fnum b => .ok (.fnum (a / b))
  | lv, rv =>
    .error ("unsupported operand type(s) for /: '" ++ lv.typeName ++ "' and '" ++
      rv.typeName ++ "'")

/-- Python `left < right`: numeric order, lexicographic string order,
`TypeError` on a mix. -/
def pyLt : Value → Value → Except String Bool
  | .vstr a, .vstr b => .ok (decide (a < b))
  | lv, rv =>
    match lv.toQ, rv.toQ with
    | some a, some b => .ok (decide (a < b))
    | _, _ =>
      .error ("'<' not supported between instances of '" ++ lv.typeName ++ "' and '" ++
        rv.typeName ++ "'")

/-- Python `left == right`: numeric or string equality, `False` on a mix. -/
def pyEqB : Value → Value → Bool
  | .vstr a, .vstr b => a = b
  | lv, rv =>
    match lv.toQ, rv.toQ with
    | some a, some b => a = b
    | _, _ => false

/-- A comparison-operator error with Python's message shape. -/
def cmpError (sym : String) (lv rv : Value) : Except String Bool :=
  .error ("'" ++ sym ++ "' not supported between instances of '" ++ lv.typeName ++
    "' and '" ++ rv.typeName ++ "'")

/-- Python `left > right`. -/
def pyGt : Value → Value → Except String Bool
  | .vstr a, .vstr b => .ok (decide (b < a))
  | lv, rv =>
    match lv.toQ, rv.toQ with
    | some a, some b => .ok (decide (b < a))
    | _, _ => cmpError ">" lv rv

/-- Python `left <= right`. -/
def pyLe : Value → Value → Except String Bool
  | .vstr a, .vstr b => .ok (decide (a ≤ b))
  | lv, rv =>
    match lv.toQ, rv.toQ with
    | some a, some b => .ok (decide (a ≤ b))
    | _, _ => cmpError "<=" lv rv

/-- Python `left >= right`. -/
def pyGe : Value → Value → Except String Bool
  | .vstr a, .vstr b => .ok (decide (b ≤ a))
  | lv, rv =>
    match lv.toQ, rv.toQ with
    | some a, some b => .ok (decide (b ≤ a))
    | _, _ => cmpError ">=" lv rv

/-- The operator dispatch of `Interpreter._evaluate_expr` once both
operands are evaluated; an unlisted operator falls through to `return 0`. -/
def applyBinOp (op : String) (lv rv : Value) : Except String Value :=
  if op = "+" then pyAdd lv rv
  else if op = "-" then pySub lv rv
  else if op = "*" then pyMul lv rv
  else if op = "/" then
    if rv.neZeroInt then pyDivRaw lv rv else .ok (.inum 0)
  else if op = "<" then (pyLt lv rv).map (fun b => if b then .inum 1 else .inum 0)
  else if op = ">" then (pyGt lv rv).map (fun b => if b then .inum 1 else .inum 0)
  else if op = "<=" then (pyLe lv rv).map (fun b => if b then .inum 1 else .inum 0)
  else if op = ">=" then (pyGe lv rv).map (fun b => if b then .inum 1 else .inum 0)
  else if op = "==" then .ok (if pyEqB lv rv then .inum 1 else .inum 0)
  else if op = "!=" then .ok (if pyEqB lv rv then .inum 0 else .inum 1)
  else if op = "&&" then .ok (if lv.truthy && rv.truthy then .inum 1 else .inum 0)
  else if op = "||" then .ok (if lv.truthy || rv.truthy then .inum 1 else .inum 0)
  else .ok (.inum 0)

/-- `Interpreter._evaluate_expr`: literals evaluate to themselves, an
identifier reads the environment with the Python-`int` default `0`, and a
binary operation evaluates left then right before dispatching. -/
def evalExpr (env : List (String × Value)) : Expr → Except String Value
  | .number q => .ok (.fnum q)
  | .string s => .ok (.vstr s)
  | .identifier n => .ok ((env.lookup n).getD (.inum 0))
  | .binaryOp op l r =>
    match evalExpr env l with
    | .error e => .error e
    | .ok lv =>
      match evalExpr env r with
      | .error e => .error e
      | .ok rv => applyBinOp op lv rv

/-- The interpreter's state: the variable environment and the output log. -/
structure RunState where
  vars : List (String × Value)
  output : List String
deriving Repr

mutual

/-- `Interpreter._execute_node`; `none` means the fuel ran out.  Fuel is
structural and decremented at every recursive step, so any terminating
Python execution is reproduced exactly once the fuel exceeds the number of
statement steps performed. -/
def execNode : Nat → RunState → Stmt → Option (Except String RunState)
  | 0, _, _ => none
  | fuel + 1, st, stmt =>
    match stmt with
    | .varDeclaration name v =>
      match evalExpr st.vars v with
      | .error e => some (.error e)
      | .ok val => some (.ok { st with vars := dictInsert st.vars name val })
    | .assignment name v =>
      match evalExpr st.vars v with
      | .error e => some (.error e)
      | .ok val => some (.ok { st with vars := dictInsert st.vars name val })
    | .whileLoop cond body =>
      match evalExpr st.vars cond with
      | .error e => some (.error e)
      | .ok cv =>
        if cv.truthy then
          match execList fuel st body with
          | none => none
          | some (.error e) => some (.error e)
          | some (.ok st1) => execNode fuel st1 (.whileLoop cond body)
        else some (.ok st)
    | .ifStatement cond thenBranch elseBranch =>
      match evalExpr st.vars cond with
      | .error e => some (.error e)
      | .ok cv =>
        if cv.truthy then execList fuel st thenBranch
        else
          match elseBranch with
          | some els => execList fuel st els
          | none => some (.ok st)
    | .printStatement v =>
      match evalExpr st.vars v with
      | .error e => some (.error e)
      | .ok val => some (.ok { st with output := st.output ++ [val.pyStr] })
termination_by structural fuel _ _ => fuel

/-- The statement-list walk of `Interpreter.execute`. -/
def execList : Nat → RunState → List Stmt → Option (Except String RunState)
  | _, st, [] => some (.ok st)
  | 0, _, _ :: _ => none
  | fuel + 1, st, n :: rest =>
    match execNode fuel st n with
    | none => none
    | some (.error e) => some (.error e)
    | some (.ok st1) => execList fuel st1 rest
termination_by structural fuel _ _ => fuel

end

/-- `Interpreter()` followed by `.execute(ast)`: fresh empty environment
and output, final output joined with newlines. -/
def Interpreter.execute (fuel : Nat) (ast : List Stmt) : Option (Except String String) :=
  match execList fuel ⟨[], []⟩ ast with
  | none => none
  | some (.error e) => some (.error e)
  | some (.ok st) => some (.ok (String.intercalate "\n" st.output))

/-! ## Pipeline coordinator (`MELCompiler`) -/

/-- The result record of `compile_and_run`.  On failure the Python dict
carries only `success`, `error` and `output`; the remaining fields are
represented by their empty defaults here. -/
structure CompResult where
  success : Bool
  error : String
  tokens : List Token
  ast : List Stmt
  symbols : List Symbol
  intermediateCode : List String
  optimizedCode : List String
  output : String
  errors : List String
deriving Repr

/-- The failure record `{'success': False, 'error': e, 'output':
'Compilation Error: ' + e}` built by the `except` handler. -/
def CompResult.fail (e : String) : CompResult :=
  ⟨false, e, [], [], [], [], [], "Compilation Error: " ++ e, []⟩

/-- `MELCompiler.compile_and_run`: the six phases in order, any raised
exception caught and turned into a failure record.  `none` models a
nonterminating run (parser or interpreter). -/
def MELCompiler.compileAndRun (fuel : Nat) (sourceCode : String) : Option CompResult :=
  match Parser.parse fuel (Lexer.tokenize sourceCode) with
  | none => none
  | some (.error e) => some (.fail e)
  | some (.ok ast) =>
    match Optimizer.optimize (ICG.generate ast) with
    | .error e => some (.fail e)
    | .ok optimized =>
      match Interpreter.execute fuel ast with
      | none => none
      | some (.error e) => some (.fail e)
      | some (.ok output) =>
        some ⟨true, "", Lexer.tokenize sourceCode, ast,
          (SemanticAnalyzer.analyze ast).symbolList, ICG.generate ast, optimized, output,
          (SemanticAnalyzer.analyze ast).errors⟩

/-! ## Divergence and termination predicates -/

/-- The parser diverges on a token stream: no amount of fuel makes
`Parser.parse` return (the Python `Parser.parse` loops forever). -/
def ParseDiverges (tokens : List Token) : Prop :=
  ∀ fuel, Parser.parse fuel tokens = none

/-- The interpreter diverges on an AST: no amount of fuel makes
`Interpreter.execute` return (the Python `Interpreter.execute` loops
forever). -/
def ExecDiverges (ast : List Stmt) : Prop :=
  ∀ fuel, Interpreter.execute fuel ast = none

/-- The comment-filtered token stream of `while (0) {` — a block body left
unclosed at end of input. -/
def c2Toks : List Token :=
  (Lexer.tokenize "while (0) \x7b").filter (fun t => t.type ≠ TokenType.COMMENT)

/-- The comment-filtered token stream of `var x = ;` — a statement whose
initializer expression starts at a separator. -/
def c2wToks : List Token :=
  (Lexer.tokenize "var x = ;").filter (fun t => t.type ≠ TokenType.COMMENT)

mutual

/-- A statement contains no `while` loop (so its execution cannot
diverge). -/
def stmtWhileFree : Stmt → Bool
  | .varDeclaration _ _ => true
  | .assignment _ _ => true
  | .whileLoop _ _ => false
  | .ifStatement _ t (some els) => listWhileFree t && listWhileFree els
  | .ifStatement _ t none => listWhileFree t
  | .printStatement _ => true
termination_by structural s => s

/-- A statement list contains no `while` loop. -/
def listWhileFree : List Stmt → Bool
  | [] => true
  | n :: rest => stmtWhileFree n && listWhileFree rest
termination_by structural l => l

end

mutual

/-- Fuel sufficient to execute a `while`-free statement. -/
def stmtFuel : Stmt → Nat
  | .varDeclaration _ _ => 1
  | .assignment _ _ => 1
  | .whileLoop _ _ => 1
  | .ifStatement _ t (some els) => 1 + max (listFuel t) (listFuel els)
  | .ifStatement _ t none => 1 + listFuel t
  | .printStatement _ => 1
termination_by structural s => s

/-- Fuel sufficient to execute a `while`-free statement list. -/
def listFuel : List Stmt → Nat
  | [] => 0
  | n :: rest => 1 + max (stmtFuel n) (listFuel rest)
termination_by structural l => l

end

/-! ## Supporting lemmas -/

/-- Each iteration of the optimizer loop appends exactly one line, so a
successful run preserves the line count, whatever the constants table. -/
theorem optGo_length (tac : List String) :
    ∀ (cs : List (String × Value)) (out : List String),
      optGo cs tac = .ok out → out.length = tac.length := by
  induction tac with
  | nil =>
    intro cs out h
    simp only [optGo] at h
    cases h
    rfl
  | cons line rest ih =>
    intro cs out h
    simp only [optGo] at h
    rcases hline : optLine cs line with e | lc
    · simp only [hline] at h
      exact Except.noConfusion h
    · simp only [hline] at h
      rcases hrest : optGo lc.2 rest with e | out'
      · simp only [hrest] at h
        exact Except.noConfusion h
      · simp only [hrest] at h
        cases h
        simpa using ih lc.2 out' hrest

/-- A value seen as the rational `q` is truthy exactly when `q ≠ 0`. -/
theorem truthy_of_toQ (v : Value) (q : ℚ) (h : v.toQ = some q) :
    v.truthy = decide (q ≠ 0) := by
  cases v with
  | fnum q' =>
    simp only [Value.toQ, Option.some.injEq] at h
    rcases eq_or_ne q 0 with hq | hq <;> simp [Value.truthy, bne, h, hq]
  | inum n =>
    simp only [Value.toQ, Option.some.injEq] at h
    rcases eq_or_ne n 0 with hn | hn <;>
      simp [Value.truthy, bne, hn, ← h, Rat.intCast_eq_zero]
  | vstr s => simp [Value.toQ] at h

/-! ## Claims -/

/-- C4: for every list of TAC lines on which `Optimizer.optimize` returns,
the returned list has exactly the same length — each input line yields
exactly one output line, never added or removed. -/
theorem C4_optimize_preserves_length (tac out : List String)
    (h : Optimizer.optimize tac = .ok out) : out.length = tac.length :=
  optGo_length tac [] out h

/-- Witness for C4 at a concrete two-line TAC list. -/
theorem C4_optimize_preserves_length_witness :
    (["t0 = 3.0  # Constant folded", "print 3.0"] : List String).length =
      (["t0 = 1 + 2", "print t0"] : List String).length :=
  C4_optimize_preserves_length ["t0 = 1 + 2", "print t0"]
    ["t0 = 3.0  # Constant folded", "print 3.0"] (by decide)

/-- C5: declaring the same name twice produces exactly one
`already declared` diagnostic, a symbol log with two entries for the name
(the second error-flagged), and leaves the original table entry in place. -/
theorem C5_duplicate_declaration (x : String) (e1 e2 : Expr) :
    (SemanticAnalyzer.analyze [.varDeclaration x e1, .varDeclaration x e2]).errors =
      ["Variable '" ++ x ++ "' already declared"] ∧
    (SemanticAnalyzer.analyze [.varDeclaration x e1, .varDeclaration x e2]).symbolList =
      [⟨x, "variable", "global", 0, true, none⟩,
       ⟨x, "variable", "global", 0, true, some "Already declared"⟩] ∧
    (SemanticAnalyzer.analyze [.varDeclaration x e1, .varDeclaration x e2]).symbols.lookup x =
      some ⟨x, "variable", "global", 0, true, none⟩ := by
  simp [SemanticAnalyzer.analyze, SemanticAnalyzer.analyzeList, SemanticAnalyzer.analyzeNode,
    dictInsert, List.lookup]

/-- C6: division of any value by a numeric zero evaluates to the Python
`int` `0` without raising; reading an unbound identifier evaluates to `0`
without raising; and `print(1/0);` compiles successfully with execution
output exactly `0`. -/
theorem C6_division_by_zero_and_unbound_default :
    (∀ (env : List (String × Value)) (l r : Expr) (lv rv : Value),
      evalExpr env l = .ok lv → evalExpr env r = .ok rv → rv.neZeroInt = false →
      evalExpr env (.binaryOp "/" l r) = .ok (.inum 0)) ∧
    (∀ (env : List (String × Value)) (n : String), env.lookup n = none →
      evalExpr env (.identifier n) = .ok (.inum 0)) ∧
    (MELCompiler.compileAndRun 30 "print(1/0);").map (fun r => (r.success, r.output)) =
      some (true, "0") := by
  refine ⟨?_, ?_, ?_⟩
  · intro env l r lv rv hl hr hz
    simp [evalExpr, hl, hr, applyBinOp, hz]
  · intro env n h
    simp [evalExpr, h]
  · decide

/-- Witness for C6's hypothesis-bearing parts at concrete inputs. -/
theorem C6_division_by_zero_and_unbound_default_witness :
    evalExpr [] (.binaryOp "/" (.number 1) (.number 0)) = .ok (.inum 0) ∧
    evalExpr [] (.identifier "z") = .ok (.inum 0) :=
  ⟨C6_division_by_zero_and_unbound_default.1 [] (.number 1) (.number 0)
      (.fnum 1) (.fnum 0) rfl rfl (by rfl),
   C6_division_by_zero_and_unbound_default.2.1 [] "z" rfl⟩

/-- C7: the pipeline result is a function of the source text alone — two
runs of `compile_and_run` on freshly constructed compiler instances (every
phase state, including the temporary/label counters, is rebuilt from its
constructor inside `compileAndRun`) give identical output, IR, and
optimized IR. -/
theorem C7_determinism (fuel : Nat) (source : String) (r1 r2 : CompResult)
    (h1 : MELCompiler.compileAndRun fuel source = some r1)
    (h2 : MELCompiler.compileAndRun fuel source = some r2) :
    r1.output = r2.output ∧ r1.intermediateCode = r2.intermediateCode ∧
      r1.optimizedCode = r2.optimizedCode := by
  have h := Option.some.inj (h1.symm.trans h2)
  subst h
  exact ⟨rfl, rfl, rfl⟩

/-- Witness for C7 on the empty source. -/
theorem C7_determinism_witness :
    (⟨true, "", [⟨TokenType.EOF, "", 1, 1⟩], [], [], [], [], "", []⟩ : CompResult).output =
      (⟨true, "", [⟨TokenType.EOF, "", 1, 1⟩], [], [], [], [], "", []⟩ : CompResult).output ∧
    (⟨true, "", [⟨TokenType.EOF, "", 1, 1⟩], [], [], [], [], "", []⟩ :
        CompResult).intermediateCode =
      (⟨true, "", [⟨TokenType.EOF, "", 1, 1⟩], [], [], [], [], "", []⟩ :
        CompResult).intermediateCode ∧
    (⟨true, "", [⟨TokenType.EOF, "", 1, 1⟩], [], [], [], [], "", []⟩ :
        CompResult).optimizedCode =
      (⟨true, "", [⟨TokenType.EOF, "", 1, 1⟩], [], [], [], [], "", []⟩ :
        CompResult).optimizedCode := by
  have h : MELCompiler.compileAndRun 30 "" =
      some ⟨true, "", [⟨TokenType.EOF, "", 1, 1⟩], [], [], [], [], "", []⟩ := by rfl
  exact C7_determinism 30 "" _ _ h h

/-- C10: `compile_and_run` never propagates an exception — every failing
result is the record `{success: false, error: e, output: "Compilation
Error: " + e}`, and in particular the `ValueError` from converting the
malformed literal `1.2.3` is caught and formatted that way. -/
theorem C10_exceptions_caught :
    (∀ (fuel : Nat) (src : String) (r : CompResult),
      MELCompiler.compileAndRun fuel src = some r → r.success = false →
      r.output = "Compilation Error: " ++ r.error) ∧
    (MELCompiler.compileAndRun 30 "var x = 1.2.3;").map (fun r => (r.success, r.error, r.output)) =
      some (false, "could not convert string to float: '1.2.3'",
        "Compilation Error: could not convert string to float: '1.2.3'") := by
  constructor
  case right => decide
  intro fuel src r h hs
  unfold MELCompiler.compileAndRun at h
  rcases hp : Parser.parse fuel (Lexer.tokenize src) with _ | pe <;> rw [hp] at h
  · cases h
  rcases pe with e | ast
  · cases h
    rfl
  simp only at h
  rcases ho : Optimizer.optimize (ICG.generate ast) with e | opt <;> rw [ho] at h
  · cases h
    rfl
  rcases he : Interpreter.execute fuel ast with _ | ee <;> rw [he] at h
  · cases h
  rcases ee with e | out
  · cases h
    rfl
  · cases h
    cases hs

/-- Witness for C10's general part at a concrete failing source. -/
theorem C10_exceptions_caught_witness :
    (CompResult.fail "Unexpected token: ;").output =
      "Compilation Error: " ++ (CompResult.fail "Unexpected token: ;").error := by
  exact C10_exceptions_caught.1 30 "var x = ;" (CompResult.fail "Unexpected token: ;")
    (by rfl) rfl

/-- The semantic analyzer never changes the current scope, and every log
entry it appends carries that scope. -/
theorem semNode_scope : ∀ (st : SemState) (n : Stmt),
    (SemanticAnalyzer.analyzeNode st n).currentScope = st.currentScope ∧
    (∀ s ∈ (SemanticAnalyzer.analyzeNode st n).symbolList,
      s ∈ st.symbolList ∨ s.scope = st.currentScope) := by
  refine SemanticAnalyzer.analyzeNode.induct
    (fun st n => (SemanticAnalyzer.analyzeNode st n).currentScope = st.currentScope ∧
      (∀ s ∈ (SemanticAnalyzer.analyzeNode st n).symbolList,
        s ∈ st.symbolList ∨ s.scope = st.currentScope))
    (fun st l => (SemanticAnalyzer.analyzeList st l).currentScope = st.currentScope ∧
      (∀ s ∈ (SemanticAnalyzer.analyzeList st l).symbolList,
        s ∈ st.symbolList ∨ s.scope = st.currentScope))
    ?_ ?_ ?_ ?_ ?_ ?_ ?_ ?_ ?_ ?_
  · intro st a e h
    constructor
    · simp [SemanticAnalyzer.analyzeNode, h]
    · intro s hs
      simp [SemanticAnalyzer.analyzeNode, h] at hs
      rcases hs with hs | hs
      · exact Or.inl hs
      · subst hs; exact Or.inr rfl
  · intro st a e h
    constructor
    · simp [SemanticAnalyzer.analyzeNode, h]
    · intro s hs
      simp [SemanticAnalyzer.analyzeNode, h] at hs
      rcases hs with hs | hs
      · exact Or.inl hs
      · subst hs; exact Or.inr rfl
  · intro st a e h
    constructor
    · simp [SemanticAnalyzer.analyzeNode, h]
    · intro s hs
      simp [SemanticAnalyzer.analyzeNode, h] at hs
      exact Or.inl hs
  · intro st a e h
    constructor
    · simp [SemanticAnalyzer.analyzeNode, h]
    · intro s hs
      simp [SemanticAnalyzer.analyzeNode, h] at hs
      rcases hs with hs | hs
      · exact Or.inl hs
      · subst hs; exact Or.inr rfl
  · intro st c body ih
    simpa [SemanticAnalyzer.analyzeNode] using ih
  · intro st c thenB
    dsimp only
    intro els ih1 ih2
    constructor
    · simp only [SemanticAnalyzer.analyzeNode]
      rw [ih2.1, ih1.1]
    · intro s hs
      simp only [SemanticAnalyzer.analyzeNode] at hs
      rcases ih2.2 s hs with hs1 | hs1
      · rcases ih1.2 s hs1 with hs2 | hs2
        · exact Or.inl hs2
        · exact Or.inr hs2
      · rw [ih1.1] at hs1
        exact Or.inr hs1
  · intro st c thenB ih
    simpa [SemanticAnalyzer.analyzeNode] using ih
  · intro st e
    exact ⟨rfl, fun s hs => Or.inl hs⟩
  · intro st
    exact ⟨rfl, fun s hs => Or.inl hs⟩
  · intro st n rest ih1 ih2
    constructor
    · simp only [SemanticAnalyzer.analyzeList]
      rw [ih2.1, ih1.1]
    · intro s hs
      simp only [SemanticAnalyzer.analyzeList] at hs
      rcases ih2.2 s hs with hs1 | hs1
      · rcases ih1.2 s hs1 with hs2 | hs2
        · exact Or.inl hs2
        · exact Or.inr hs2
      · rw [ih1.1] at hs1
        exact Or.inr hs1

/-- The list form of `semNode_scope` (via the `while`-body walk, which is
definitionally the list walk). -/
theorem semList_scope (st : SemState) (l : List Stmt) :
    (SemanticAnalyzer.analyzeList st l).currentScope = st.currentScope ∧
    (∀ s ∈ (SemanticAnalyzer.analyzeList st l).symbolList,
      s ∈ st.symbolList ∨ s.scope = st.currentScope) :=
  semNode_scope st (.whileLoop (.number 0) l)

/-- C1 counterexample: in `var x = 1; x = 2;` the assignment targets an
already-declared name and appends no log entry — the log holds one entry,
not the two the claim predicts. -/
theorem C1_counterexample :
    (SemanticAnalyzer.analyze
      [.varDeclaration "x" (.number 1), .assignment "x" (.number 2)]).symbolList.length = 1 := by
  decide

/-- C1 as amended: every visited declaration appends exactly one log entry
and an assignment appends exactly one entry precisely when its target is
undeclared (an assignment to a declared name appends none); every entry in
the log carries the scope `"global"`. -/
theorem C1_log_entries_amended :
    (∀ (st : SemState) (n : String) (e : Expr),
      (SemanticAnalyzer.analyzeNode st (.varDeclaration n e)).symbolList.length =
        st.symbolList.length + 1) ∧
    (∀ (st : SemState) (n : String) (e : Expr),
      (SemanticAnalyzer.analyzeNode st (.assignment n e)).symbolList.length =
        st.symbolList.length +
          (if (st.symbols.lookup n).isSome then 0 else 1)) ∧
    (∀ (ast : List Stmt) (s : Symbol),
      s ∈ (SemanticAnalyzer.analyze ast).symbolList → s.scope = "global") := by
  refine ⟨?_, ?_, ?_⟩
  · intro st n e
    by_cases h : (st.symbols.lookup n).isSome <;> simp [SemanticAnalyzer.analyzeNode, h]
  · intro st n e
    by_cases h : (st.symbols.lookup n).isSome <;> simp [SemanticAnalyzer.analyzeNode, h]
  · intro ast s hs
    rcases (semList_scope ⟨[], [], [], "global"⟩ ast).2 s hs with h | h
    · simp at h
    · exact h

/-- Witness for C1's amended scope clause at a concrete program. -/
theorem C1_log_entries_amended_witness :
    (⟨"x", "variable", "global", 0, true, none⟩ : Symbol).scope = "global" :=
  C1_log_entries_amended.2.2 [.varDeclaration "x" (.number 1)]
    ⟨"x", "variable", "global", 0, true, none⟩ (by decide)

/-- C8: a binary operation with a relational (`<`, `>`, `<=`, `>=`),
equality (`==`, `!=`) or logical (`&&`, `||`) operator evaluates, whenever
it returns, to exactly the Python `int` `1` or `0`; `if` control flow
runs the then-branch exactly when the numeric condition value is nonzero,
the else side when it is zero; and `while` control flow enters its body
(and re-enters the loop with the body's resulting state) exactly when the
numeric condition value is nonzero, exiting with the current state when it
is zero. -/
theorem C8_boolean_results_and_truthiness :
    (∀ (env : List (String × Value)) (op : String) (l r : Expr) (v : Value),
      (op = "<" ∨ op = ">" ∨ op = "<=" ∨ op = ">=" ∨ op = "==" ∨ op = "!=" ∨
        op = "&&" ∨ op = "||") →
      evalExpr env (.binaryOp op l r) = .ok v → v = .inum 1 ∨ v = .inum 0) ∧
    (∀ (fuel : Nat) (st : RunState) (c : Expr) (t : List Stmt) (e : Option (List Stmt))
        (v : Value) (q : ℚ),
      evalExpr st.vars c = .ok v → v.toQ = some q →
      (q ≠ 0 → execNode (fuel + 1) st (.ifStatement c t e) = execList fuel st t) ∧
      (q = 0 → execNode (fuel + 1) st (.ifStatement c t e) =
        (match e with | some els => execList fuel st els | none => some (.ok st)))) ∧
    (∀ (fuel : Nat) (st st1 : RunState) (c : Expr) (body : List Stmt)
        (v : Value) (q : ℚ),
      evalExpr st.vars c = .ok v → v.toQ = some q →
      (q ≠ 0 → execList fuel st body = some (.ok st1) →
        execNode (fuel + 1) st (.whileLoop c body) =
          execNode fuel st1 (.whileLoop c body)) ∧
      (q = 0 → execNode (fuel + 1) st (.whileLoop c body) = some (.ok st))) := by
  refine ⟨?_, ?_, ?_⟩
  · intro env op l r v hop hv
    simp only [evalExpr] at hv
    rcases hl : evalExpr env l with e | lv <;> rw [hl] at hv
    · exact Except.noConfusion hv
    rcases hr : evalExpr env r with e | rv <;> rw [hr] at hv
    · exact Except.noConfusion hv
    rcases hop with h | h | h | h | h | h | h | h <;> subst h <;>
      simp only [applyBinOp, reduceIte, Except.map] at hv
    · rcases hlt : pyLt lv rv with e | b <;> rw [hlt] at hv
      · exact Except.noConfusion hv
      · cases hv; cases b <;> simp
    · rcases hlt : pyGt lv rv with e | b <;> rw [hlt] at hv
      · exact Except.noConfusion hv
      · cases hv; cases b <;> simp
    · rcases hlt : pyLe lv rv with e | b <;> rw [hlt] at hv
      · exact Except.noConfusion hv
      · cases hv; cases b <;> simp
    · rcases hlt : pyGe lv rv with e | b <;> rw [hlt] at hv
      · exact Except.noConfusion hv
      · cases hv; cases b <;> simp
    · cases hv; rcases pyEqB lv rv with _ | _ <;> simp
    · cases hv; rcases pyEqB lv rv with _ | _ <;> simp
    · cases hv; rcases lv.truthy && rv.truthy with _ | _ <;> simp
    · cases hv; rcases lv.truthy || rv.truthy with _ | _ <;> simp
  · intro fuel st c t e v q hc hq
    have ht := truthy_of_toQ v q hq
    constructor
    · intro hnz
      simp [execNode, hc, ht, hnz]
    · intro hz
      subst hz
      simp [execNode, hc, ht]
  · intro fuel st st1 c body v q hc hq
    have ht := truthy_of_toQ v q hq
    constructor
    · intro hnz hbody
      simp [execNode, hc, ht, hnz, hbody]
    · intro hz
      subst hz
      simp [execNode, hc, ht]

/-- Witness for C8 on the comparison `1 < 2`, a concrete `if`, and a
concrete `while` in both condition outcomes. -/
theorem C8_boolean_results_and_truthiness_witness :
    (Value.inum 1 = Value.inum 1 ∨ Value.inum 1 = Value.inum 0) ∧
    (execNode 6 ⟨[], []⟩ (.ifStatement (.number 1) [] (some [.printStatement (.string "e")])) =
      execList 5 ⟨[], []⟩ []) ∧
    (execNode 6 ⟨[], []⟩ (.whileLoop (.number 1) []) =
      execNode 5 ⟨[], []⟩ (.whileLoop (.number 1) [])) ∧
    (execNode 6 ⟨[], []⟩ (.whileLoop (.number 0) []) = some (.ok ⟨[], []⟩)) :=
  ⟨C8_boolean_results_and_truthiness.1 [] "<" (.number 1) (.number 2) (.inum 1)
      (Or.inl rfl) (by decide),
   (C8_boolean_results_and_truthiness.2.1 5 ⟨[], []⟩ (.number 1) []
      (some [.printStatement (.string "e")]) (.fnum 1) 1 rfl rfl).1 one_ne_zero,
   (C8_boolean_results_and_truthiness.2.2 5 ⟨[], []⟩ ⟨[], []⟩ (.number 1) []
      (.fnum 1) 1 rfl rfl).1 one_ne_zero rfl,
   (C8_boolean_results_and_truthiness.2.2 5 ⟨[], []⟩ ⟨[], []⟩ (.number 0) []
      (.fnum 0) 0 rfl rfl).2 rfl⟩

/-- C9: constant folding is exact on `dest = <number> <op> <number>` lines
for every operator the pattern admits (`+`, `-`, `*`, `/`) — the line
becomes `dest = <result>  # Constant folded` with the real arithmetic
result and `dest` is recorded as a known constant; a line matching no fold
pattern and containing no known constant is passed through unchanged; and
a fold dividing by a literal zero yields `0`. -/
theorem C9_constant_folding :
    (∀ (cs : List (String × Value)) (line result a b : String) (qa qb : ℚ),
      foldMatch line = some (result, a, '+', b) →
      pyFloat a = .ok qa → pyFloat b = .ok qb →
      optLine cs line =
        .ok (result ++ " = " ++ (Value.fnum (qa + qb)).pyStr ++ "  # Constant folded",
          dictInsert cs result (.fnum (qa + qb)))) ∧
    (∀ (cs : List (String × Value)) (line result a b : String) (qa qb : ℚ),
      foldMatch line = some (result, a, '-', b) →
      pyFloat a = .ok qa → pyFloat b = .ok qb →
      optLine cs line =
        .ok (result ++ " = " ++ (Value.fnum (qa - qb)).pyStr ++ "  # Constant folded",
          dictInsert cs result (.fnum (qa - qb)))) ∧
    (∀ (cs : List (String × Value)) (line result a b : String) (qa qb : ℚ),
      foldMatch line = some (result, a, '*', b) →
      pyFloat a = .ok qa → pyFloat b = .ok qb →
      optLine cs line =
        .ok (result ++ " = " ++ (Value.fnum (qa * qb)).pyStr ++ "  # Constant folded",
          dictInsert cs result (.fnum (qa * qb)))) ∧
    (∀ (cs : List (String × Value)) (line result a b : String) (qa qb : ℚ),
      foldMatch line = some (result, a, '/', b) →
      pyFloat a = .ok qa → pyFloat b = .ok qb → qb ≠ 0 →
      optLine cs line =
        .ok (result ++ " = " ++ (Value.fnum (qa / qb)).pyStr ++ "  # Constant folded",
          dictInsert cs result (.fnum (qa / qb)))) ∧
    (∀ (cs : List (String × Value)) (line : String),
      foldMatch line = none → cs.any (fun kv => strContains line kv.1) = false →
      optLine cs line = .ok (line, cs)) ∧
    (∀ (cs : List (String × Value)) (line result a b : String) (qa : ℚ),
      foldMatch line = some (result, a, '/', b) →
      pyFloat a = .ok qa → pyFloat b = .ok 0 →
      optLine cs line =
        .ok (result ++ " = " ++ "0" ++ "  # Constant folded",
          dictInsert cs result (.inum 0))) ∧
    (Optimizer.optimize ["t0 = 2 + 3"] = .ok ["t0 = 5.0  # Constant folded"] ∧
     Optimizer.optimize ["t0 = 5 - 2"] = .ok ["t0 = 3.0  # Constant folded"] ∧
     Optimizer.optimize ["t0 = 2 * 3"] = .ok ["t0 = 6.0  # Constant folded"] ∧
     Optimizer.optimize ["t0 = 6 / 2"] = .ok ["t0 = 3.0  # Constant folded"] ∧
     Optimizer.optimize ["t0 = x + 3"] = .ok ["t0 = x + 3"] ∧
     Optimizer.optimize ["t0 = 1 / 0"] = .ok ["t0 = 0  # Constant folded"]) := by
  refine ⟨?_, ?_, ?_, ?_, ?_, ?_,
    by decide, by decide, by decide, by decide, by decide, by decide⟩
  · intro cs line result a b qa qb hm ha hb
    simp [optLine, hm, ha, hb, foldValue]
  · intro cs line result a b qa qb hm ha hb
    simp [optLine, hm, ha, hb, foldValue]
  · intro cs line result a b qa qb hm ha hb
    simp [optLine, hm, ha, hb, foldValue]
  · intro cs line result a b qa qb hm ha hb hqb
    simp [optLine, hm, ha, hb, foldValue, hqb]
  · intro cs line hm hc
    simp [optLine, hm, hc]
  · intro cs line result a b qa hm ha hb
    simp [optLine, hm, ha, hb, foldValue, Value.pyStr]
    have h0 : toString (0 : ℤ) = "0" := by decide
    rw [h0]

/-- Witness for C9's hypothesis-bearing parts at concrete lines, one per
operator. -/
theorem C9_constant_folding_witness :
    optLine [] "t0 = 2 + 3" =
      .ok ("t0" ++ " = " ++ (Value.fnum ((2 : ℚ) + 3)).pyStr ++ "  # Constant folded",
        dictInsert [] "t0" (.fnum ((2 : ℚ) + 3))) ∧
    optLine [] "t0 = 5 - 2" =
      .ok ("t0" ++ " = " ++ (Value.fnum ((5 : ℚ) - 2)).pyStr ++ "  # Constant folded",
        dictInsert [] "t0" (.fnum ((5 : ℚ) - 2))) ∧
    optLine [] "t0 = 2 * 3" =
      .ok ("t0" ++ " = " ++ (Value.fnum ((2 : ℚ) * 3)).pyStr ++ "  # Constant folded",
        dictInsert [] "t0" (.fnum ((2 : ℚ) * 3))) ∧
    optLine [] "t0 = 6 / 2" =
      .ok ("t0" ++ " = " ++ (Value.fnum ((6 : ℚ) / 2)).pyStr ++ "  # Constant folded",
        dictInsert [] "t0" (.fnum ((6 : ℚ) / 2))) ∧
    optLine [] "print x" = .ok ("print x", []) ∧
    optLine [] "t0 = 1 / 0" =
      .ok ("t0" ++ " = " ++ "0" ++ "  # Constant folded", dictInsert [] "t0" (.inum 0)) :=
  ⟨C9_constant_folding.1 [] "t0 = 2 + 3" "t0" "2" "3" 2 3 (by decide) (by decide) (by decide),
   C9_constant_folding.2.1 [] "t0 = 5 - 2" "t0" "5" "2" 5 2
     (by decide) (by decide) (by decide),
   C9_constant_folding.2.2.1 [] "t0 = 2 * 3" "t0" "2" "3" 2 3
     (by decide) (by decide) (by decide),
   C9_constant_folding.2.2.2.1 [] "t0 = 6 / 2" "t0" "6" "2" 6 2
     (by decide) (by decide) (by decide) (by decide),
   C9_constant_folding.2.2.2.2.1 [] "print x" (by decide) (by decide),
   C9_constant_folding.2.2.2.2.2.1 [] "t0 = 1 / 0" "t0" "1" "0" 1
     (by decide) (by decide) (by decide)⟩

/-- The token stream of `while (0) {`, explicitly. -/
theorem c2Toks_eq : c2Toks =
    [⟨.KEYWORD, "while", 1, 1⟩, ⟨.SEPARATOR, "(", 1, 7⟩, ⟨.NUMBER, "0", 1, 8⟩,
     ⟨.SEPARATOR, ")", 1, 9⟩, ⟨.SEPARATOR, "\x7b", 1, 11⟩, ⟨.EOF, "", 1, 12⟩] := by
  decide

/-- From the position of the synthesized `EOF` token on, `_peek` always
returns an `EOF`-typed token with empty text (past the end of the list the
Python `_peek` returns the final `EOF` token; the model returns the
default token, which agrees in type and value). -/
theorem c2_peek (pos : Nat) (h : 5 ≤ pos) :
    (peekT c2Toks pos).value = "" ∧ (peekT c2Toks pos).type = TokenType.EOF := by
  rw [c2Toks_eq]
  obtain ⟨k, rfl⟩ : ∃ k, pos = 5 + k := ⟨pos - 5, by omega⟩
  cases k with
  | zero => exact ⟨rfl, rfl⟩
  | succ j =>
    have h6 : 5 + (j + 1) = j + 6 := by omega
    rw [h6]
    simp [peekT, List.getD]

/-- At end of input, `_statement` hits no keyword and no identifier, so it
takes the final skip branch and just advances the position. -/
theorem c2_stmt_eof (fuel pos : Nat) (h : 5 ≤ pos) :
    pStatement c2Toks (fuel + 1) pos = some (.ok (none, pos + 1)) := by
  have hv := (c2_peek pos h).1
  have ht := (c2_peek pos h).2
  simp [pStatement, checkT, hv, ht]

/-- The block-body loop of `_while_loop` never returns once the position
has reached the `EOF` token: `}` is never seen and the skip branch keeps
advancing. -/
theorem c2_block_diverges : ∀ (fuel pos : Nat) (acc : List Stmt), 5 ≤ pos →
    pBlockBody c2Toks fuel pos acc = none := by
  intro fuel
  induction fuel with
  | zero => intro pos acc h; rfl
  | succ f ih =>
    intro pos acc h
    have hck : checkT c2Toks pos "\x7d" = false := by
      simp [checkT, (c2_peek pos h).1]
    cases f with
    | zero => simp [pBlockBody, hck, pStatement, pBind]
    | succ g =>
      rw [pBlockBody, if_neg (by simp [hck]), c2_stmt_eof g pos h]
      simp only [pBind]
      exact ih (pos + 1) acc (by omega)

/-- `_primary` at the literal `0`: out of fuel, or the number `0`. -/
theorem c2_primary (f : Nat) : pPrimary c2Toks f 2 = none ∨
    pPrimary c2Toks f 2 = some (.ok (.number 0, 3)) := by
  cases f with
  | zero => exact Or.inl rfl
  | succ g => exact Or.inr rfl

/-- The `*`/`/` loop at position 3 (`)`) returns its argument. -/
theorem c2_mulLoop (f : Nat) (l : Expr) : pMulLoop c2Toks f l 3 = none ∨
    pMulLoop c2Toks f l 3 = some (.ok (l, 3)) := by
  cases f with
  | zero => exact Or.inl rfl
  | succ g => exact Or.inr rfl

/-- `_multiplicative` on the condition `0`. -/
theorem c2_mult (f : Nat) : pMultiplicative c2Toks f 2 = none ∨
    pMultiplicative c2Toks f 2 = some (.ok (.number 0, 3)) := by
  cases f with
  | zero => exact Or.inl rfl
  | succ g =>
    rcases c2_primary g with h | h <;> simp only [pMultiplicative, h, pBind]
    · exact Or.inl trivial
    · exact c2_mulLoop g (.number 0)

/-- The `+`/`-` loop at position 3 returns its argument. -/
theorem c2_addLoop (f : Nat) (l : Expr) : pAddLoop c2Toks f l 3 = none ∨
    pAddLoop c2Toks f l 3 = some (.ok (l, 3)) := by
  cases f with
  | zero => exact Or.inl rfl
  | succ g => exact Or.inr rfl

/-- `_additive` on the condition `0`. -/
theorem c2_add (f : Nat) : pAdditive c2Toks f 2 = none ∨
    pAdditive c2Toks f 2 = some (.ok (.number 0, 3)) := by
  cases f with
  | zero => exact Or.inl rfl
  | succ g =>
    rcases c2_mult g with h | h <;> simp only [pAdditive, h, pBind]
    · exact Or.inl trivial
    · exact c2_addLoop g (.number 0)

/-- The comparison loop at position 3 returns its argument. -/
theorem c2_compLoop (f : Nat) (l : Expr) : pCompLoop c2Toks f l 3 = none ∨
    pCompLoop c2Toks f l 3 = some (.ok (l, 3)) := by
  cases f with
  | zero => exact Or.inl rfl
  | succ g => exact Or.inr rfl

/-- `_comparison` on the condition `0`. -/
theorem c2_comp (f : Nat) : pComparison c2Toks f 2 = none ∨
    pComparison c2Toks f 2 = some (.ok (.number 0, 3)) := by
  cases f with
  | zero => exact Or.inl rfl
  | succ g =>
    rcases c2_add g with h | h <;> simp only [pComparison, h, pBind]
    · exact Or.inl trivial
    · exact c2_compLoop g (.number 0)

/-- The equality loop at position 3 returns its argument. -/
theorem c2_eqLoop (f : Nat) (l : Expr) : pEqLoop c2Toks f l 3 = none ∨
    pEqLoop c2Toks f l 3 = some (.ok (l, 3)) := by
  cases f with
  | zero => exact Or.inl rfl
  | succ g => exact Or.inr rfl

/-- `_equality` on the condition `0`. -/
theorem c2_eq (f : Nat) : pEquality c2Toks f 2 = none ∨
    pEquality c2Toks f 2 = some (.ok (.number 0, 3)) := by
  cases f with
  | zero => exact Or.inl rfl
  | succ g =>
    rcases c2_comp g with h | h <;> simp only [pEquality, h, pBind]
    · exact Or.inl trivial
    · exact c2_eqLoop g (.number 0)

/-- The `&&` loop at position 3 returns its argument. -/
theorem c2_andLoop (f : Nat) (l : Expr) : pAndLoop c2Toks f l 3 = none ∨
    pAndLoop c2Toks f l 3 = some (.ok (l, 3)) := by
  cases f with
  | zero => exact Or.inl rfl
  | succ g => exact Or.inr rfl

/-- `_logical_and` on the condition `0`. -/
theorem c2_and (f : Nat) : pLogicalAnd c2Toks f 2 = none ∨
    pLogicalAnd c2Toks f 2 = some (.ok (.number 0, 3)) := by
  cases f with
  | zero => exact Or.inl rfl
  | succ g =>
    rcases c2_eq g with h | h <;> simp only [pLogicalAnd, h, pBind]
    · exact Or.inl trivial
    · exact c2_andLoop g (.number 0)

/-- The ll loop at position 3 returns its argument. -/
theorem c2_orLoop (f : Nat) (l : Expr) : pOrLoop c2Toks f l 3 = none ∨
    pOrLoop c2Toks f l 3 = some (.ok (l, 3)) := by
  cases f with
  | zero => exact Or.inl rfl
  | succ g => exact Or.inr rfl

/-- `_logical_or` on the condition `0`. -/
theorem c2_or (f : Nat) : pLogicalOr c2Toks f 2 = none ∨
    pLogicalOr c2Toks f 2 = some (.ok (.number 0, 3)) := by
  cases f with
  | zero => exact Or.inl rfl
  | succ g =>
    rcases c2_and g with h | h <;> simp only [pLogicalOr, h, pBind]
    · exact Or.inl trivial
    · exact c2_orLoop g (.number 0)

/-- `_expression` on the condition `0`. -/
theorem c2_expr (f : Nat) : pExpression c2Toks f 2 = none ∨
    pExpression c2Toks f 2 = some (.ok (.number 0, 3)) := by
  cases f with
  | zero => exact Or.inl rfl
  | succ g => simpa only [pExpression] using c2_or g

/-- `_while_loop` on `while (0) {` never returns: after consuming the
header it enters the block-body loop at the `EOF` position. -/
theorem c2_while_none (f : Nat) : pWhileLoop c2Toks f 0 = none := by
  cases f with
  | zero => rfl
  | succ g =>
    have hw : pWhileLoop c2Toks (g + 1) 0 =
        pBind (pExpression c2Toks g 2) (fun cp =>
          pBind (pLift (pConsume c2Toks ")" cp.2)) (fun p3 =>
          pBind (pLift (pConsume c2Toks "\x7b" p3)) (fun p4 =>
          pBind (pBlockBody c2Toks g p4 []) (fun bp =>
          pBind (pLift (pConsume c2Toks "\x7d" bp.2)) (fun p5 =>
          some (.ok (.whileLoop cp.1 bp.1, p5))))))) := rfl
    rw [hw]
    rcases c2_expr g with h | h <;> rw [h]
    · rfl
    · have hb : pBlockBody c2Toks g 5 [] = none := c2_block_diverges g 5 [] (by omega)
      show pBind (pBlockBody c2Toks g 5 [])
          (fun bp => pBind (pLift (pConsume c2Toks "\x7d" bp.2)) (fun p5 =>
            some (Except.ok (Stmt.whileLoop (Expr.number 0) bp.1, p5)))) = none
      rw [hb]
      rfl

/-- `_statement` on `while (0) {` never returns. -/
theorem c2_stmt0 (f : Nat) : pStatement c2Toks f 0 = none := by
  cases f with
  | zero => rfl
  | succ g =>
    have h : pStatement c2Toks (g + 1) 0 =
        pBind (pWhileLoop c2Toks g 0) (fun sp => some (.ok (some sp.1, sp.2))) := rfl
    rw [h, c2_while_none g]
    rfl

/-- `Parser.parse`'s statement loop on `while (0) {` never returns. -/
theorem c2_prog (f : Nat) (acc : List Stmt) : pProgram c2Toks f 0 acc = none := by
  cases f with
  | zero => rfl
  | succ g =>
    have h : pProgram c2Toks (g + 1) 0 acc =
        pBind (pStatement c2Toks g 0) (fun sp =>
          pProgram c2Toks g sp.2
            (match sp.1 with | some s => acc ++ [s] | none => acc)) := rfl
    rw [h, c2_stmt0 g]
    rfl

/-- C2 counterexample: on `while (0) {` — an unclosed `{` block body
reaching end of input — `Parser.parse` does not raise a `SyntaxError`; it
never returns at all, for any fuel (`_peek` clamps to the `EOF` token and
the skip branch of `_statement` advances past it forever). -/
theorem C2_counterexample : ParseDiverges (Lexer.tokenize "while (0) \x7b") := by
  intro fuel
  show pProgram c2Toks fuel 0 [] = none
  exact c2_prog fuel []

/-- C2 as amended: a mismatched expected token makes `_consume` raise a
`SyntaxError` carrying the offending token's text; a statement-level
`SyntaxError` aborts the statement loop immediately and propagates
unchanged (no recovery); and on `var x = ;` the parser returns the
`Unexpected token` error.  (The unclosed-`{`-at-EOF case is excluded: there
the parser diverges instead of raising.) -/
theorem C2_syntax_errors_amended (toks : List Token) (expected : String)
    (pos fuel : Nat) (e : String) (acc : List Stmt)
    (hne : (peekT toks pos).value ≠ expected)
    (hlt : pos < toks.length) (heof : (peekT toks pos).type ≠ TokenType.EOF)
    (hstmt : pStatement toks fuel pos = some (.error e)) :
    pConsume toks expected pos =
      .error ("Expected '" ++ expected ++ "', got '" ++ (peekT toks pos).value ++ "'") ∧
    pProgram toks (fuel + 1) pos acc = some (.error e) ∧
    Parser.parse 30 (Lexer.tokenize "var x = ;") =
      some (.error "Unexpected token: ;") := by
  refine ⟨?_, ?_, by rfl⟩
  · simp [pConsume, hne]
  · have h : pProgram toks (fuel + 1) pos acc =
        if pos < toks.length ∧ (peekT toks pos).type ≠ TokenType.EOF then
          pBind (pStatement toks fuel pos) (fun sp =>
            pProgram toks fuel sp.2
              (match sp.1 with | some s => acc ++ [s] | none => acc))
        else some (.ok acc) := rfl
    rw [h, if_pos ⟨hlt, heof⟩, hstmt]
    rfl

/-- Witness for C2's amended statement on `var x = ;`. -/
theorem C2_syntax_errors_amended_witness :
    pConsume c2wToks ";" 0 =
      .error ("Expected '" ++ ";" ++ "', got '" ++ (peekT c2wToks 0).value ++ "'") ∧
    pProgram c2wToks (20 + 1) 0 [] = some (.error "Unexpected token: ;") ∧
    Parser.parse 30 (Lexer.tokenize "var x = ;") =
      some (.error "Unexpected token: ;") :=
  C2_syntax_errors_amended c2wToks ";" 0 20 "Unexpected token: ;" []
    (by decide) (by decide) (by decide) (by rfl)

/-- A `while (1)` loop with an empty body re-enters itself forever: no
fuel suffices. -/
theorem c3_while_one_diverges : ∀ (fuel : Nat) (st : RunState),
    execNode fuel st (.whileLoop (.number 1) []) = none := by
  intro fuel
  induction fuel with
  | zero => intro st; rfl
  | succ f ih =>
    intro st
    have h1 : execList f st [] = some (.ok st) := by cases f <;> rfl
    have h : execNode (f + 1) st (.whileLoop (.number 1) []) =
        match execList f st [] with
        | none => none
        | some (.error e) => some (.error e)
        | some (.ok st1) => execNode f st1 (.whileLoop (.number 1) []) := rfl
    rw [h, h1]
    exact ih st

/-- C3 counterexample: `while (1) { }` scans and parses successfully, yet
`Interpreter.execute` never returns on the resulting AST — the execution
phase does not terminate, so `compile_and_run` does not return a
`CompilationResult` for this source. -/
theorem C3_counterexample :
    Parser.parse 30 (Lexer.tokenize "while (1) { }") =
      some (.ok [.whileLoop (.number 1) []]) ∧
    ExecDiverges [.whileLoop (.number 1) []] := by
  constructor
  · rfl
  · intro fuel
    have h : execList fuel ⟨[], []⟩ [.whileLoop (.number 1) []] = none := by
      cases fuel with
      | zero => rfl
      | succ f =>
        have h2 : execList (f + 1) ⟨[], []⟩ [.whileLoop (.number 1) []] =
            match execNode f ⟨[], []⟩ (.whileLoop (.number 1) []) with
            | none => none
            | some (.error e) => some (.error e)
            | some (.ok st1) => execList f st1 [] := rfl
        rw [h2, c3_while_one_diverges f ⟨[], []⟩]
    unfold Interpreter.execute
    rw [h]

/-- Executing a `while`-free statement (or statement list) cannot run out
of fuel once the fuel reaches the statement's structural bound. -/
theorem exec_total : ∀ (fuel : Nat),
    (∀ (n : Stmt) (st : RunState), stmtWhileFree n = true → stmtFuel n ≤ fuel →
      execNode fuel st n ≠ none) ∧
    (∀ (l : List Stmt) (st : RunState), listWhileFree l = true → listFuel l ≤ fuel →
      execList fuel st l ≠ none) := by
  intro fuel
  induction fuel with
  | zero =>
    constructor
    · intro n st hwf hfl
      cases n with
      | varDeclaration name v => simp [stmtFuel] at hfl
      | assignment name v => simp [stmtFuel] at hfl
      | whileLoop c body => simp [stmtFuel] at hfl
      | ifStatement c t e => cases e <;> simp [stmtFuel] at hfl
      | printStatement v => simp [stmtFuel] at hfl
    · intro l st hwf hfl
      cases l with
      | nil => simp [execList]
      | cons n rest => simp [listFuel] at hfl
  | succ f ih =>
    constructor
    · intro n st hwf hfl
      cases n with
      | varDeclaration name v =>
        cases h : evalExpr st.vars v <;> simp [execNode, h]
      | assignment name v =>
        cases h : evalExpr st.vars v <;> simp [execNode, h]
      | whileLoop c body => simp [stmtWhileFree] at hwf
      | ifStatement c t e =>
        cases h : evalExpr st.vars c with
        | error msg => simp [execNode, h]
        | ok cv =>
          cases e with
          | none =>
            have hft : listFuel t ≤ f := by simp [stmtFuel] at hfl; omega
            have hwt : listWhileFree t = true := by simpa [stmtWhileFree] using hwf
            by_cases hcv : cv.truthy <;> simp [execNode, h, hcv]
            exact ih.2 t st hwt hft
          | some els =>
            have hfl2 : listFuel t ≤ f ∧ listFuel els ≤ f := by
              simp [stmtFuel] at hfl; omega
            have hw2 : listWhileFree t = true ∧ listWhileFree els = true := by
              simpa [stmtWhileFree] using hwf
            by_cases hcv : cv.truthy <;> simp [execNode, h, hcv]
            · exact ih.2 t st hw2.1 hfl2.1
            · exact ih.2 els st hw2.2 hfl2.2
      | printStatement v =>
        cases h : evalExpr st.vars v <;> simp [execNode, h]
    · intro l st hwf hfl
      cases l with
      | nil => simp [execList]
      | cons n rest =>
        have hfl2 : stmtFuel n ≤ f ∧ listFuel rest ≤ f := by
          simp [listFuel] at hfl; omega
        have hw2 : stmtWhileFree n = true ∧ listWhileFree rest = true := by
          simpa [listWhileFree] using hwf
        cases h : execNode f st n with
        | none => exact absurd h (ih.1 n st hw2.1 hfl2.1)
        | some r =>
          cases r with
          | error e => simp [execList, h]
          | ok st1 =>
            simp [execList, h]
            exact ih.2 rest st1 hw2.2 hfl2.2

/-- C3 as amended: for every source whose scanning and parsing succeed
**and whose AST contains no `while` loop**, the execution phase
terminates — `execList` and `Interpreter.execute` return once the fuel
reaches the AST's structural bound `listFuel`.  (The `while`-free
restriction is necessary: see the `while (1) \x7b \x7d` divergence.) -/
theorem C3_execution_total_amended (fuel : Nat) (ast : List Stmt) (st : RunState)
    (hwf : listWhileFree ast = true) (hfl : listFuel ast ≤ fuel) :
    execList fuel st ast ≠ none ∧ Interpreter.execute fuel ast ≠ none := by
  refine ⟨(exec_total fuel).2 ast st hwf hfl, ?_⟩
  have h := (exec_total fuel).2 ast ⟨[], []⟩ hwf hfl
  unfold Interpreter.execute
  cases hh : execList fuel ⟨[], []⟩ ast with
  | none => exact absurd hh h
  | some r => cases r <;> simp

/-- Witness for C3's amended statement on `print(1);`. -/
theorem C3_execution_total_amended_witness :
    execList 2 ⟨[], []⟩ [.printStatement (.number 1)] ≠ none ∧
    Interpreter.execute 2 [.printStatement (.number 1)] ≠ none :=
  C3_execution_total_amended 2 [.printStatement (.number 1)] ⟨[], []⟩
    (by decide) (by decide)

end MEL
